import Mathlib

/-!
Shallow embedding of the VelvetVault bookmark manager
(src/bookmark/app/page.tsx) and verification of its specification.

The data model (MediaItem, Bookmark, Folder) and the mutation handlers
(handleCreateFolder, handleAddBookmark, handleAddMedia, deleteMedia,
handleUnlock, selectFolder, deleteBookmark, handleDeleteFromModal,
handleEnchant, callGemini, the folders useState initializer) are
translated from the source into pure Lean functions over an explicit
application state.  Nondeterministic platform inputs (Date.now, the
current ISO timestamp, window.confirm, the AI response text, the JSON
parser, the fetch outcome) are passed as explicit parameters.
-/

namespace VelvetVault

/-- `MediaItem.type` in the source is the union 'image' | 'video' | 'voice'. -/
inductive MediaType where
  | image
  | video
  | voice
deriving DecidableEq

/-- The string the source interpolates into the "added" toast for each type. -/
def MediaType.toStr : MediaType → String
  | .image => "image"
  | .video => "video"
  | .voice => "voice"

/-- interface MediaItem (page.tsx lines 11-16). -/
structure MediaItem where
  id : String
  type : MediaType
  content : String
  createdAt : String
deriving DecidableEq

/-- interface Bookmark (page.tsx lines 18-25). -/
structure Bookmark where
  id : String
  title : String
  url : String
  description : String
  createdAt : String
  media : List MediaItem
deriving DecidableEq

/-- interface Folder (page.tsx lines 27-32). -/
structure Folder where
  id : String
  name : String
  password : String
  bookmarks : List Bookmark
deriving DecidableEq

/-- Toast type union 'success' | 'error'. -/
inductive ToastType where
  | success
  | error
deriving DecidableEq

/-- interface ToastState (page.tsx lines 34-37). -/
structure ToastState where
  msg : String
  type : ToastType
deriving DecidableEq

/-- The React state of the VelvetVault component that the mutation
handlers read and write (page.tsx lines 243-281); transient UI-only
state such as the sidebar, search and oracle chat is omitted because no
handler modelled here reads it. -/
structure AppState where
  folders : List Folder
  unlockedFolders : List String
  activeFolderId : Option String
  toast : Option ToastState
  addFolderModalOpen : Bool
  addBookmarkModalOpen : Bool
  unlockModalOpen : Bool
  detailModalOpen : Bool
  folderToUnlock : Option String
  selectedBookmark : Option Bookmark
  newFolderName : String
  newFolderPass : String
  newBookmarkTitle : String
  newBookmarkUrl : String
  newBookmarkDesc : String
  newBookmarkImg : Option String
  unlockInput : String
  videoUrlInput : String
deriving DecidableEq

/-- The default folder of the useState initializer (page.tsx line 247). -/
def defaultFolder : Folder :=
  { id := "default", name := "Inspiration", password := "123", bookmarks := [] }

/-- The folders useState initializer (page.tsx lines 243-250):
`saved ? JSON.parse(saved) : [defaultFolder]` inside try/catch, where the
catch branch returns the empty array.  `saved` is `none` when the key is
absent; the empty string is falsy in JavaScript, so it also selects the
default.  `JSON.parse` is a platform facility, passed in as `parse`
(`none` models a thrown SyntaxError). -/
def loadFolders (saved : Option String) (parse : String → Option (List Folder)) :
    List Folder :=
  match saved with
  | none => [defaultFolder]
  | some s =>
    if s = "" then [defaultFolder]
    else
      match parse s with
      | some fs => fs
      | none => []

/-- Models `JSON.parse` at the malformed blob "\x7b": it throws, i.e.
returns no value, on every input. -/
def parseAlwaysFails : String → Option (List Folder) := fun _ => none

/-- Outcome of the `fetch` call in `callGemini`: either the promise
rejects (network error, or `response.json()` throws), or a response
arrives with an `ok` flag and the optional candidate text found at
`data.candidates?.[0]?.content?.parts?.[0]?.text`. -/
inductive FetchOutcome where
  | failed
  | response (ok : Bool) (text : Option String)
deriving DecidableEq

/-- Result of `callGemini`: the returned string, and whether a network
request was issued at all. -/
structure GeminiResult where
  text : String
  requestSent : Bool
deriving DecidableEq

/-- callGemini (page.tsx lines 47-75).  A missing key short-circuits
before the fetch; a rejected fetch or a non-ok status lands in the catch
branch; an ok response with a falsy candidate text falls back to
"The spirits were silent...". -/
def callGemini (apiKey : String) (outcome : FetchOutcome) : GeminiResult :=
  if apiKey = "" then
    { text := "Error: API Key is missing.", requestSent := false }
  else
    match outcome with
    | .failed =>
      { text := "The connection to the ether was severed. Please try again.",
        requestSent := true }
    | .response ok text =>
      if ok then
        match text with
        | some t =>
          if t = "" then { text := "The spirits were silent...", requestSent := true }
          else { text := t, requestSent := true }
        | none => { text := "The spirits were silent...", requestSent := true }
      else
        { text := "The connection to the ether was severed. Please try again.",
          requestSent := true }

/-- One pass of `result.replace(/```json|```/g, '')` over a character
list: at each position the regex first tries "```json", then "```", and
otherwise keeps the character.  The fuel argument only bounds the
recursion; every step consumes at least one character, so fuel equal to
the length of the list never runs out. -/
def stripFencesGo : Nat → List Char → List Char
  | _, [] => []
  | 0, l => l
  | fuel + 1, c :: cs =>
    if ("```json".toList).isPrefixOf (c :: cs) then stripFencesGo fuel (cs.drop 6)
    else if ("```".toList).isPrefixOf (c :: cs) then stripFencesGo fuel (cs.drop 2)
    else c :: stripFencesGo fuel cs

/-- `result.replace(/```json|```/g, '')` in handleEnchant (page.tsx line 321). -/
def stripFences (s : String) : String :=
  String.mk (stripFencesGo s.toList.length s.toList)

/-- The shape `JSON.parse` gives handleEnchant: the `title` and
`description` properties of the parsed value, `none` when absent (or not
present as a usable string). -/
structure EnchantResponse where
  title : Option String
  description : Option String
deriving DecidableEq

/-- ASCII lowercasing of one character. -/
def charLower (c : Char) : Char :=
  if 'A' ≤ c ∧ c ≤ 'Z' then Char.ofNat (c.toNat + 32) else c

/-- JavaScript `String.trim`: strip whitespace from both ends. -/
def trimStr (s : String) : String :=
  String.mk
    (((s.toList.dropWhile Char.isWhitespace).reverse.dropWhile Char.isWhitespace).reverse)

/-- The regex test `/^https?:\/\//i.test(url)` of handleAddBookmark
(page.tsx line 389): a case-insensitive "http://" or "https://" prefix. -/
def startsWithHttpScheme (s : String) : Bool :=
  let l := s.toList.map charLower
  "http://".toList.isPrefixOf l || "https://".toList.isPrefixOf l

/-- The remainder of the list after the first occurrence of the
(nonempty) pattern, `none` when the pattern does not occur. -/
def dropThroughFirst (pat : List Char) : List Char → Option (List Char)
  | [] => none
  | c :: cs =>
    if pat.isPrefixOf (c :: cs) then some (cs.drop (pat.length - 1))
    else dropThroughFirst pat cs

/-- Modelled from the spec: the host component of a URL, as produced by
the platform's `new URL(url).hostname` (page.tsx line 403), which is not
part of the repository.  The authority is what follows the first "://"
up to the first '/', '?' or '#'; the host drops any userinfo before '@'
and any port after ':', and is lowercased. -/
def urlHostname (url : String) : String :=
  match dropThroughFirst "://".toList url.toList with
  | none => ""
  | some afterScheme =>
    let authority :=
      afterScheme.takeWhile (fun c => !(c == '/') && !(c == '?') && !(c == '#'))
    let hostPort := (authority.reverse.takeWhile (fun c => !(c == '@'))).reverse
    String.mk ((hostPort.takeWhile (fun c => !(c == ':'))).map charLower)

/-- JavaScript `Set.add`: membership-preserving insertion (insertion
order at the end, no duplicates). -/
def setAdd (x : String) (l : List String) : List String :=
  if l.contains x then l else l ++ [x]

/-- showToast (page.tsx line 307). -/
def showToast (msg : String) (type : ToastType) (s : AppState) : AppState :=
  { s with toast := some { msg := msg, type := type } }

/-- handleCreateFolder (page.tsx lines 368-384).  `now` stands for
`Date.now().toString()`. -/
def handleCreateFolder (now : String) (s : AppState) : AppState :=
  if trimStr s.newFolderName = "" ∨ trimStr s.newFolderPass = "" then
    showToast "Name and password required" .error s
  else
    { s with
      folders := s.folders ++
        [{ id := now, name := s.newFolderName, password := s.newFolderPass,
           bookmarks := [] }],
      newFolderName := "",
      newFolderPass := "",
      addFolderModalOpen := false,
      toast := some { msg := "Folder created successfully", type := .success } }

/-- The `newBookmark` record built by handleAddBookmark (page.tsx lines
391-408): scheme normalization, the `||`-defaults for title and
description, and the optional initial cover image. -/
def newBookmarkOf (s : AppState) (now isoNow : String) : Bookmark :=
  let url :=
    if startsWithHttpScheme s.newBookmarkUrl then s.newBookmarkUrl
    else "https://" ++ s.newBookmarkUrl
  let initialMedia : List MediaItem :=
    match s.newBookmarkImg with
    | some img =>
      if img = "" then []
      else [{ id := now ++ "_img", type := .image, content := img, createdAt := isoNow }]
    | none => []
  { id := now,
    title := if s.newBookmarkTitle = "" then urlHostname url else s.newBookmarkTitle,
    url := url,
    description := if s.newBookmarkDesc = "" then "A mysterious link..." else s.newBookmarkDesc,
    createdAt := isoNow,
    media := initialMedia }

/-- handleAddBookmark (page.tsx lines 386-424). -/
def handleAddBookmark (now isoNow : String) (s : AppState) : AppState :=
  if trimStr s.newBookmarkUrl = "" then s
  else
    let nb := newBookmarkOf s now isoNow
    { s with
      folders := s.folders.map (fun f =>
        if s.activeFolderId = some f.id then { f with bookmarks := nb :: f.bookmarks }
        else f),
      newBookmarkUrl := "",
      newBookmarkTitle := "",
      newBookmarkDesc := "",
      newBookmarkImg := none,
      addBookmarkModalOpen := false,
      toast := some { msg := "Bookmark added", type := .success } }

/-- The inner `bookmarks.map` of handleAddMedia and deleteMedia with its
`setSelectedBookmark` side effect: map `upd` over the bookmarks whose id
matches the selected bookmark; the second component is the update of the
last matching bookmark (the value left by the last `setSelectedBookmark`
call in iteration order), if any. -/
def updateBookmarksSel (selId : String) (upd : Bookmark → Bookmark) :
    List Bookmark → List Bookmark × Option Bookmark
  | [] => ([], none)
  | b :: bs =>
    let r := updateBookmarksSel selId upd bs
    if b.id = selId then
      let b2 := upd b
      (b2 :: r.1,
       match r.2 with
       | some x => some x
       | none => some b2)
    else
      (b :: r.1, r.2)

/-- The `folders.map` of handleAddMedia and deleteMedia (page.tsx lines
438-451 and 476-489): in every folder whose id matches, rewrite the
bookmarks through `updateBookmarksSel`, and record the value of the last
`setSelectedBookmark` call. -/
def updateFoldersSel (fid selId : String) (upd : Bookmark → Bookmark) :
    List Folder → List Folder × Option Bookmark
  | [] => ([], none)
  | f :: fs =>
    let r := updateFoldersSel fid selId upd fs
    if f.id = fid then
      let rb := updateBookmarksSel selId upd f.bookmarks
      ({ f with bookmarks := rb.1 } :: r.1,
       match r.2 with
       | some b => some b
       | none => rb.2)
    else
      (f :: r.1, r.2)

/-- handleAddMedia (page.tsx lines 435-454).  The guard
`!selectedBookmark || !activeFolderId` returns early when no bookmark is
selected, or the active folder id is null or the empty string (falsy). -/
def handleAddMedia (now isoNow : String) (t : MediaType) (content : String)
    (s : AppState) : AppState :=
  match s.selectedBookmark, s.activeFolderId with
  | some sb, some fid =>
    if fid = "" then s
    else
      let newMedia : MediaItem :=
        { id := now, type := t, content := content, createdAt := isoNow }
      let r := updateFoldersSel fid sb.id
        (fun b => { b with media := b.media ++ [newMedia] }) s.folders
      { s with
        folders := r.1,
        selectedBookmark :=
          match r.2 with
          | some b => some b
          | none => s.selectedBookmark,
        toast := some { msg := t.toStr ++ " added", type := .success } }
  | _, _ => s

/-- deleteMedia (page.tsx lines 474-491), same shape as handleAddMedia
with a filter instead of an append, and no toast. -/
def deleteMedia (mediaId : String) (s : AppState) : AppState :=
  match s.selectedBookmark, s.activeFolderId with
  | some sb, some fid =>
    if fid = "" then s
    else
      let r := updateFoldersSel fid sb.id
        (fun b => { b with media := b.media.filter (fun m => !(m.id == mediaId)) })
        s.folders
      { s with
        folders := r.1,
        selectedBookmark :=
          match r.2 with
          | some b => some b
          | none => s.selectedBookmark }
  | _, _ => s

/-- True when the pattern occurs as a contiguous sublist. -/
def listContainsSub (pat : List Char) : List Char → Bool
  | [] => pat.isEmpty
  | c :: cs => pat.isPrefixOf (c :: cs) || listContainsSub pat cs

/-- True when `pat` occurs in `s` (JavaScript `String.includes`). -/
def containsSubstr (s pat : String) : Bool :=
  listContainsSub pat.toList s.toList

/-- Replace the first occurrence of the (nonempty) pattern. -/
def replaceFirstList (pat repl : List Char) : List Char → List Char
  | [] => []
  | c :: cs =>
    if pat.isPrefixOf (c :: cs) then repl ++ cs.drop (pat.length - 1)
    else c :: replaceFirstList pat repl cs

/-- JavaScript `String.replace` with a string pattern: replaces only the
first occurrence. -/
def replaceFirst (s pat repl : String) : String :=
  String.mk (replaceFirstList pat.toList repl.toList s.toList)

/-- handleAddVideoLink (page.tsx lines 465-472). -/
def handleAddVideoLink (now isoNow : String) (s : AppState) : AppState :=
  if s.videoUrlInput = "" then s
  else
    let embedUrl :=
      if containsSubstr s.videoUrlInput "youtube.com/watch?v=" then
        replaceFirst s.videoUrlInput "watch?v=" "embed/"
      else if containsSubstr s.videoUrlInput "youtu.be/" then
        replaceFirst s.videoUrlInput "youtu.be/" "youtube.com/embed/"
      else s.videoUrlInput
    let s1 := handleAddMedia now isoNow .video embedUrl s
    { s1 with videoUrlInput := "" }

/-- handleUnlock (page.tsx lines 493-505).  `find` locates the folder
whose id equals `folderToUnlock`; on a password match the id is added to
the unlocked set (the inner `if (folderToUnlock)` skips falsy ids, i.e.
null or the empty string), the folder becomes active and the modal
closes; otherwise an error toast is shown. -/
def handleUnlock (s : AppState) : AppState :=
  match s.folders.find? (fun f => s.folderToUnlock == some f.id) with
  | some f =>
    if f.password = s.unlockInput then
      { s with
        unlockedFolders :=
          match s.folderToUnlock with
          | some id => if id = "" then s.unlockedFolders else setAdd id s.unlockedFolders
          | none => s.unlockedFolders,
        activeFolderId := s.folderToUnlock,
        unlockModalOpen := false,
        unlockInput := "" }
    else showToast "Incorrect password" .error s
  | none => showToast "Incorrect password" .error s

/-- selectFolder (page.tsx lines 507-515); the sidebar toggle is UI-only
and omitted. -/
def selectFolder (id : String) (s : AppState) : AppState :=
  if s.unlockedFolders.contains id then { s with activeFolderId := some id }
  else { s with folderToUnlock := some id, unlockModalOpen := true }

/-- deleteBookmark (page.tsx lines 517-527); `confirmed` is the result
of `window.confirm`. -/
def deleteBookmark (bookmarkId : String) (confirmed : Bool) (s : AppState) : AppState :=
  if confirmed then
    { s with
      folders := s.folders.map (fun f =>
        if s.activeFolderId = some f.id then
          { f with bookmarks := f.bookmarks.filter (fun b => !(b.id == bookmarkId)) }
        else f) }
  else s

/-- handleDeleteFromModal (page.tsx lines 529-543).  The outer guard
`selectedBookmark && activeFolderId` requires a selected bookmark and a
truthy active folder id. -/
def handleDeleteFromModal (confirmed : Bool) (s : AppState) : AppState :=
  match s.selectedBookmark, s.activeFolderId with
  | some sb, some fid =>
    if fid = "" then s
    else if confirmed then
      { s with
        folders := s.folders.map (fun f =>
          if s.activeFolderId = some f.id then
            { f with bookmarks := f.bookmarks.filter (fun b => !(b.id == sb.id)) }
          else f),
        detailModalOpen := false,
        selectedBookmark := none,
        toast := some { msg := "Bookmark deleted", type := .success } }
    else s
  | _, _ => s

/-- `if (parsed.title) setNewBookmarkTitle(parsed.title)` in
handleEnchant (page.tsx line 323): applied only when the property is
present and truthy. -/
def applyParsedTitle (p : EnchantResponse) (s : AppState) : AppState :=
  match p.title with
  | some t => if t = "" then s else { s with newBookmarkTitle := t }
  | none => s

/-- `if (parsed.description) setNewBookmarkDesc(parsed.description)`
(page.tsx line 324). -/
def applyParsedDesc (p : EnchantResponse) (s : AppState) : AppState :=
  match p.description with
  | some d => if d = "" then s else { s with newBookmarkDesc := d }
  | none => s

/-- handleEnchant (page.tsx lines 311-332).  `result` is the text
returned by callGemini; `parse` models `JSON.parse` applied to the
fence-stripped text (`none` when it throws).  The success path fills
the truthy fields and shows the success toast; a parse failure lands in
the catch branch with an error toast and untouched fields. -/
def handleEnchant (result : String) (parse : String → Option EnchantResponse)
    (s : AppState) : AppState :=
  if s.newBookmarkUrl = "" then showToast "Enter a URL first" .error s
  else
    match parse (stripFences result) with
    | none => showToast "The spirits are confused. Try manual entry." .error s
    | some p =>
      showToast "✨ The link has been illuminated!" .success
        (applyParsedDesc p (applyParsedTitle p s))

/-- The user-triggered operations of a session: every handler of the
component that touches the modelled state, together with the plain
setState calls wired to the form inputs and modal open/close buttons.
Platform inputs a handler consumes are carried by the action. -/
inductive Action where
  | createFolder (now : String)
  | addBookmark (now isoNow : String)
  | addMedia (now isoNow : String) (t : MediaType) (content : String)
  | addVideoLink (now isoNow : String)
  | removeMedia (mediaId : String)
  | unlock
  | chooseFolder (id : String)
  | removeBookmark (bookmarkId : String) (confirmed : Bool)
  | removeFromModal (confirmed : Bool)
  | enchant (result : String) (parse : String → Option EnchantResponse)
  | openDetail (b : Bookmark)
  | closeDetail
  | openAddFolderModal
  | closeAddFolderModal
  | openAddBookmarkModal
  | closeAddBookmarkModal
  | closeUnlockModal
  | setNewFolderName (v : String)
  | setNewFolderPass (v : String)
  | setNewBookmarkTitle (v : String)
  | setNewBookmarkUrl (v : String)
  | setNewBookmarkDesc (v : String)
  | setNewBookmarkImg (v : Option String)
  | setUnlockInput (v : String)
  | setVideoUrlInput (v : String)
  | clearToast

/-- The session step function: dispatch an action to its handler. -/
def step : Action → AppState → AppState
  | .createFolder now, s => handleCreateFolder now s
  | .addBookmark now isoNow, s => handleAddBookmark now isoNow s
  | .addMedia now isoNow t content, s => handleAddMedia now isoNow t content s
  | .addVideoLink now isoNow, s => handleAddVideoLink now isoNow s
  | .removeMedia mediaId, s => deleteMedia mediaId s
  | .unlock, s => handleUnlock s
  | .chooseFolder id, s => selectFolder id s
  | .removeBookmark bookmarkId confirmed, s => deleteBookmark bookmarkId confirmed s
  | .removeFromModal confirmed, s => handleDeleteFromModal confirmed s
  | .enchant result parse, s => handleEnchant result parse s
  | .openDetail b, s => { s with selectedBookmark := some b, detailModalOpen := true }
  | .closeDetail, s => { s with detailModalOpen := false }
  | .openAddFolderModal, s => { s with addFolderModalOpen := true }
  | .closeAddFolderModal, s => { s with addFolderModalOpen := false }
  | .openAddBookmarkModal, s => { s with addBookmarkModalOpen := true }
  | .closeAddBookmarkModal, s => { s with addBookmarkModalOpen := false }
  | .closeUnlockModal, s => { s with unlockModalOpen := false }
  | .setNewFolderName v, s => { s with newFolderName := v }
  | .setNewFolderPass v, s => { s with newFolderPass := v }
  | .setNewBookmarkTitle v, s => { s with newBookmarkTitle := v }
  | .setNewBookmarkUrl v, s => { s with newBookmarkUrl := v }
  | .setNewBookmarkDesc v, s => { s with newBookmarkDesc := v }
  | .setNewBookmarkImg v, s => { s with newBookmarkImg := v }
  | .setUnlockInput v, s => { s with unlockInput := v }
  | .setVideoUrlInput v, s => { s with videoUrlInput := v }
  | .clearToast, s => { s with toast := none }

/-- A quiescent state used to build concrete instances. -/
def emptyState : AppState :=
  { folders := [], unlockedFolders := [], activeFolderId := none, toast := none,
    addFolderModalOpen := false, addBookmarkModalOpen := false,
    unlockModalOpen := false, detailModalOpen := false, folderToUnlock := none,
    selectedBookmark := none, newFolderName := "", newFolderPass := "",
    newBookmarkTitle := "", newBookmarkUrl := "", newBookmarkDesc := "",
    newBookmarkImg := none, unlockInput := "", videoUrlInput := "" }

/-- Models `JSON.parse` for handleEnchant at a response that is not
JSON: it throws on every input. -/
def enchantParseFails : String → Option EnchantResponse := fun _ => none

/-! ## Theorems -/

/-- C1 counterexample: store the malformed blob "\x7b" (on which
`JSON.parse` throws); the load operation returns the empty sequence of
folders, not a single default folder as the claim states. -/
theorem load_malformed_counterexample :
    loadFolders (some "\x7b") parseAlwaysFails ≠ [defaultFolder] := by
  decide

/-- C1 (amended): the load operation returns the parsed folders for
stored parseable content; when there is no prior data (or the stored
string is empty, hence falsy) it returns a single default folder; on a
JSON parse failure it returns the empty sequence of folders, not the
default folder. -/
theorem loadFolders_cases (parse : String → Option (List Folder)) :
    loadFolders none parse = [defaultFolder]
    ∧ loadFolders (some "") parse = [defaultFolder]
    ∧ (∀ s fs, s ≠ "" → parse s = some fs → loadFolders (some s) parse = fs)
    ∧ (∀ s, s ≠ "" → parse s = none → loadFolders (some s) parse = []) := by
  refine ⟨rfl, rfl, ?_, ?_⟩
  · intro s fs hs hp
    simp [loadFolders, hs, hp]
  · intro s hs hp
    simp [loadFolders, hs, hp]

/-- Witness for the amended C1 at concrete inputs. -/
theorem loadFolders_cases_witness :
    loadFolders none parseAlwaysFails = [defaultFolder]
    ∧ loadFolders (some "\x7b") parseAlwaysFails = [] :=
  ⟨(loadFolders_cases parseAlwaysFails).1,
   (loadFolders_cases parseAlwaysFails).2.2.2 "\x7b" (by decide) rfl⟩

/-- C6: handleCreateFolder leaves the store unchanged and shows a
user-visible error when the name or the password is blank after
trimming; otherwise it appends a folder with that name and password and
an empty bookmark sequence at the end of the store. -/
theorem createFolder_spec (now : String) (s : AppState) :
    (trimStr s.newFolderName = "" ∨ trimStr s.newFolderPass = "" →
      (handleCreateFolder now s).folders = s.folders
      ∧ (handleCreateFolder now s).toast =
          some { msg := "Name and password required", type := .error })
    ∧ (trimStr s.newFolderName ≠ "" → trimStr s.newFolderPass ≠ "" →
      (handleCreateFolder now s).folders =
        s.folders ++ [{ id := now, name := s.newFolderName,
                        password := s.newFolderPass, bookmarks := [] }]) := by
  constructor
  · intro h
    simp [handleCreateFolder, showToast, h]
  · intro h1 h2
    simp [handleCreateFolder, h1, h2]

/-- Witness for C6: a blank name is rejected; a filled form appends. -/
theorem createFolder_spec_witness :
    ((handleCreateFolder "7" { emptyState with newFolderPass := "pw" }).folders = []
      ∧ (handleCreateFolder "7" { emptyState with newFolderPass := "pw" }).toast =
          some { msg := "Name and password required", type := .error })
    ∧ (handleCreateFolder "7"
        { emptyState with newFolderName := "Work", newFolderPass := "pw" }).folders =
      [{ id := "7", name := "Work", password := "pw", bookmarks := [] }] :=
  ⟨(createFolder_spec "7" { emptyState with newFolderPass := "pw" }).1 (by left; decide),
   (createFolder_spec "7"
      { emptyState with newFolderName := "Work", newFolderPass := "pw" }).2
      (by decide) (by decide)⟩

/-- C8: callGemini with a missing credential returns the fixed local
error string without issuing a network request (whatever the network
would have done); with a credential and a non-success HTTP status it
returns the fixed severed-connection fallback string from the catch
branch, never an exception. -/
theorem callGemini_fallback (apiKey : String) (outcome : FetchOutcome) :
    (apiKey = "" →
      callGemini apiKey outcome =
        { text := "Error: API Key is missing.", requestSent := false })
    ∧ (∀ txt, apiKey ≠ "" → outcome = .response false txt →
      callGemini apiKey outcome =
        { text := "The connection to the ether was severed. Please try again.",
          requestSent := true }) := by
  constructor
  · intro h
    simp [callGemini, h]
  · intro txt h1 h2
    subst h2
    simp [callGemini, h1]

/-- Witness for C8 at concrete inputs. -/
theorem callGemini_fallback_witness :
    callGemini "" .failed =
      { text := "Error: API Key is missing.", requestSent := false }
    ∧ callGemini "k" (.response false none) =
      { text := "The connection to the ether was severed. Please try again.",
        requestSent := true } :=
  ⟨(callGemini_fallback "" .failed).1 rfl,
   (callGemini_fallback "k" (.response false none)).2 none (by decide) rfl⟩

/-- C7: when the (fence-stripped) enrichment response is not parseable
as JSON, handleEnchant leaves the title and description form fields
unmodified and emits the failure toast; when the parsed response holds
only a title, only the title field is applied, and symmetrically for a
description. -/
theorem enchant_parse_failure_frame (s : AppState) (result : String)
    (parse : String → Option EnchantResponse)
    (hurl : s.newBookmarkUrl ≠ "") :
    (parse (stripFences result) = none →
      (handleEnchant result parse s).newBookmarkTitle = s.newBookmarkTitle
      ∧ (handleEnchant result parse s).newBookmarkDesc = s.newBookmarkDesc
      ∧ (handleEnchant result parse s).toast =
          some { msg := "The spirits are confused. Try manual entry.",
                 type := .error })
    ∧ (∀ t, parse (stripFences result) =
          some { title := some t, description := none } → t ≠ "" →
      (handleEnchant result parse s).newBookmarkTitle = t
      ∧ (handleEnchant result parse s).newBookmarkDesc = s.newBookmarkDesc)
    ∧ (∀ d, parse (stripFences result) =
          some { title := none, description := some d } → d ≠ "" →
      (handleEnchant result parse s).newBookmarkDesc = d
      ∧ (handleEnchant result parse s).newBookmarkTitle = s.newBookmarkTitle) := by
  refine ⟨?_, ?_, ?_⟩
  · intro h
    simp [handleEnchant, showToast, hurl, h]
  · intro t h ht
    simp [handleEnchant, showToast, applyParsedTitle, applyParsedDesc, hurl, h, ht]
  · intro d h hd
    simp [handleEnchant, showToast, applyParsedTitle, applyParsedDesc, hurl, h, hd]

/-- Witness for C7: a non-JSON response leaves the fields of a concrete
form state alone and shows the failure toast. -/
theorem enchant_parse_failure_frame_witness :
    (handleEnchant "oops" enchantParseFails
        { emptyState with newBookmarkUrl := "x", newBookmarkTitle := "T",
                          newBookmarkDesc := "D" }).newBookmarkTitle = "T"
    ∧ (handleEnchant "oops" enchantParseFails
        { emptyState with newBookmarkUrl := "x", newBookmarkTitle := "T",
                          newBookmarkDesc := "D" }).newBookmarkDesc = "D"
    ∧ (handleEnchant "oops" enchantParseFails
        { emptyState with newBookmarkUrl := "x", newBookmarkTitle := "T",
                          newBookmarkDesc := "D" }).toast =
        some { msg := "The spirits are confused. Try manual entry.",
               type := .error } :=
  (enchant_parse_failure_frame
      { emptyState with newBookmarkUrl := "x", newBookmarkTitle := "T",
                        newBookmarkDesc := "D" }
      "oops" enchantParseFails (by decide)).1 rfl

/-- C2: when the entered URL does not already start with an http or
https scheme (case-insensitive), the bookmark handleAddBookmark builds
stores the input prefixed with "https://"; when no title is supplied the
stored title is the host component of the normalized URL; and the built
bookmark is prepended to every folder matching the active folder id. -/
theorem addBookmark_normalizes (s : AppState) (now isoNow : String)
    (hurl : trimStr s.newBookmarkUrl ≠ "")
    (hsch : startsWithHttpScheme s.newBookmarkUrl = false) :
    (newBookmarkOf s now isoNow).url = "https://" ++ s.newBookmarkUrl
    ∧ (s.newBookmarkTitle = "" →
        (newBookmarkOf s now isoNow).title =
          urlHostname ("https://" ++ s.newBookmarkUrl))
    ∧ (handleAddBookmark now isoNow s).folders = s.folders.map (fun f =>
        if s.activeFolderId = some f.id then
          { f with bookmarks := newBookmarkOf s now isoNow :: f.bookmarks }
        else f) := by
  refine ⟨?_, ?_, ?_⟩
  · simp [newBookmarkOf, hsch]
  · intro ht
    simp [newBookmarkOf, hsch, ht]
  · simp [handleAddBookmark, hurl]

/-- Witness for C2 at the spec's concrete instance: input "example.com"
with no title yields URL "https://example.com" and title "example.com". -/
theorem addBookmark_normalizes_witness :
    (newBookmarkOf { emptyState with newBookmarkUrl := "example.com" } "1" "t").url
      = "https://example.com"
    ∧ (newBookmarkOf { emptyState with newBookmarkUrl := "example.com" } "1" "t").title
      = "example.com" := by
  have h := addBookmark_normalizes
    { emptyState with newBookmarkUrl := "example.com" } "1" "t"
    (by decide) (by decide)
  exact ⟨h.1.trans (by decide), (h.2.1 rfl).trans (by decide)⟩

/-- The element just added is in the set. -/
lemma setAdd_mem_self (x : String) (l : List String) : x ∈ setAdd x l := by
  unfold setAdd
  split
  · next h => exact List.mem_of_elem_eq_true h
  · exact List.mem_append_right l (List.mem_singleton.mpr rfl)

/-- `Set.add` never removes members. -/
lemma setAdd_mem_of_mem {y : String} (x : String) {l : List String}
    (h : y ∈ l) : y ∈ setAdd x l := by
  unfold setAdd
  split
  · exact h
  · exact List.mem_append_left _ h

/-- When `f` is the unique folder carrying its id, `find` locates it. -/
lemma find_folder_eq (l : List Folder) (f : Folder) (hf : f ∈ l)
    (huniq : ∀ g ∈ l, g.id = f.id → g = f) :
    l.find? (fun g => some f.id == some g.id) = some f := by
  induction l with
  | nil => cases hf
  | cons a t ih =>
    by_cases hid : a.id = f.id
    · have ha : a = f := huniq a (List.mem_cons_self a t) hid
      subst ha
      exact List.find?_cons_of_pos _ (by simp)
    · rw [List.find?_cons_of_neg _ (by simp; exact fun h => hid h.symm)]
      rcases List.mem_cons.mp hf with h | hft
      · subst h
        exact absurd rfl hid
      · exact ih hft (fun g hg => huniq g (List.mem_cons_of_mem a hg))

/-- Unfolding of handleUnlock when `find` locates a folder. -/
lemma handleUnlock_found (s : AppState) (f : Folder)
    (hfind : s.folders.find? (fun g => s.folderToUnlock == some g.id) = some f) :
    handleUnlock s =
      if f.password = s.unlockInput then
        { s with
          unlockedFolders :=
            match s.folderToUnlock with
            | some id =>
              if id = "" then s.unlockedFolders else setAdd id s.unlockedFolders
            | none => s.unlockedFolders,
          activeFolderId := s.folderToUnlock,
          unlockModalOpen := false,
          unlockInput := "" }
      else showToast "Incorrect password" .error s := by
  unfold handleUnlock
  rw [hfind]

/-- C3: for a folder in the store (uniquely identified by the pending
unlock id, carrying the nonempty id every folder the code creates has,
and not yet unlocked), handleUnlock adds the folder's id to the
transient unlocked set and makes it active exactly when the supplied
string equals the stored plaintext password; on any other string the
unlocked set and active folder are untouched and an error toast appears,
and — there being no lockout or rate limiting — retrying with the
correct password right after the failure still unlocks. -/
theorem unlock_iff_password (s : AppState) (f : Folder)
    (hf : f ∈ s.folders)
    (huniq : ∀ g ∈ s.folders, g.id = f.id → g = f)
    (hto : s.folderToUnlock = some f.id)
    (hid : f.id ≠ "")
    (hlocked : f.id ∉ s.unlockedFolders) :
    ((f.id ∈ (handleUnlock s).unlockedFolders
        ∧ (handleUnlock s).activeFolderId = some f.id)
      ↔ s.unlockInput = f.password)
    ∧ (s.unlockInput ≠ f.password →
        (handleUnlock s).unlockedFolders = s.unlockedFolders
        ∧ (handleUnlock s).activeFolderId = s.activeFolderId
        ∧ (handleUnlock s).toast =
            some { msg := "Incorrect password", type := .error })
    ∧ (s.unlockInput ≠ f.password →
        f.id ∈ (handleUnlock
            { handleUnlock s with unlockInput := f.password }).unlockedFolders
        ∧ (handleUnlock
            { handleUnlock s with unlockInput := f.password }).activeFolderId
          = some f.id) := by
  have hfind : s.folders.find? (fun g => s.folderToUnlock == some g.id) = some f := by
    rw [hto]
    exact find_folder_eq s.folders f hf huniq
  by_cases hp : f.password = s.unlockInput
  · have hstep : handleUnlock s =
        { s with
          unlockedFolders := setAdd f.id s.unlockedFolders,
          activeFolderId := some f.id,
          unlockModalOpen := false,
          unlockInput := "" } := by
      rw [handleUnlock_found s f hfind, if_pos hp, hto]
      simp [hid]
    refine ⟨?_, fun hne => absurd hp.symm hne, fun hne => absurd hp.symm hne⟩
    rw [hstep]
    exact ⟨fun _ => hp.symm,
      fun _ => ⟨setAdd_mem_self f.id s.unlockedFolders, rfl⟩⟩
  · have hstep : handleUnlock s = showToast "Incorrect password" .error s := by
      rw [handleUnlock_found s f hfind, if_neg hp]
    refine ⟨?_, ?_, ?_⟩
    · rw [hstep]
      unfold showToast
      exact ⟨fun h => absurd h.1 hlocked, fun h => absurd h.symm hp⟩
    · intro _
      rw [hstep]
      exact ⟨rfl, rfl, rfl⟩
    · intro _
      rw [hstep]
      have hfind2 :
          ({ showToast "Incorrect password" ToastType.error s with
              unlockInput := f.password } : AppState).folders.find?
            (fun g =>
              ({ showToast "Incorrect password" ToastType.error s with
                  unlockInput := f.password } : AppState).folderToUnlock
                == some g.id) = some f := by
        unfold showToast
        simp only
        rw [hto]
        exact find_folder_eq s.folders f hf huniq
      rw [handleUnlock_found _ f hfind2]
      unfold showToast
      rw [if_pos rfl]
      simp only
      rw [hto]
      simp only [hid, if_neg hid]
      exact ⟨setAdd_mem_self f.id s.unlockedFolders, by trivial⟩

/-- Witness for C3: on the default folder, the wrong guess "nope" leaves
it locked with an error toast, and the correct password "123" unlocks
it right afterwards. -/
theorem unlock_iff_password_witness :
    ((handleUnlock
        { emptyState with folders := [defaultFolder],
                          folderToUnlock := some "default",
                          unlockInput := "nope" }).unlockedFolders = []
      ∧ (handleUnlock
          { emptyState with folders := [defaultFolder],
                            folderToUnlock := some "default",
                            unlockInput := "nope" }).activeFolderId = none
      ∧ (handleUnlock
          { emptyState with folders := [defaultFolder],
                            folderToUnlock := some "default",
                            unlockInput := "nope" }).toast =
          some { msg := "Incorrect password", type := .error })
    ∧ "default" ∈ (handleUnlock
        { handleUnlock
            { emptyState with folders := [defaultFolder],
                              folderToUnlock := some "default",
                              unlockInput := "nope" } with
          unlockInput := "123" }).unlockedFolders := by
  have h := unlock_iff_password
    { emptyState with folders := [defaultFolder],
                      folderToUnlock := some "default",
                      unlockInput := "nope" }
    defaultFolder (by decide) (by decide) rfl (by decide) (by decide)
  exact ⟨h.2.1 (by decide), (h.2.2 (by decide)).1⟩

/-- The per-folder rewrite deleteBookmark applies to the store. -/
def deleteBookmarkFolder (act : Option String) (bid : String) (f : Folder) : Folder :=
  if act = some f.id then
    { f with bookmarks := f.bookmarks.filter (fun b => !(b.id == bid)) }
  else f

/-- deleteBookmark, once confirmed, maps `deleteBookmarkFolder` over the
store. -/
lemma deleteBookmark_unfold (bid : String) (s : AppState) :
    deleteBookmark bid true s =
      { s with folders := s.folders.map (deleteBookmarkFolder s.activeFolderId bid) } := by
  rfl

/-- `deleteBookmarkFolder` is idempotent on each folder. -/
lemma deleteBookmarkFolder_idem (act : Option String) (bid : String) (f : Folder) :
    deleteBookmarkFolder act bid (deleteBookmarkFolder act bid f) =
      deleteBookmarkFolder act bid f := by
  unfold deleteBookmarkFolder
  by_cases h0 : act = some f.id
  · rw [if_pos h0]
    rw [if_pos (h0 :
      act = some ({ f with
        bookmarks := f.bookmarks.filter (fun b => !(b.id == bid)) } : Folder).id)]
    rw [List.filter_eq_self.mpr (fun b hb => (List.mem_filter.mp hb).2)]
  · rw [if_neg h0, if_neg h0]

/-- C5: with an active folder, deleteBookmark (after confirmation)
removes the bookmark with the given id from the active folder's
sequence; every folder with a different id keeps exactly its old value
at its old position, and in the active folder every bookmark with a
different id is kept in order; when no bookmark with the id exists
anywhere the call is a no-op, and in particular re-running the deletion
is a no-op (idempotence). -/
theorem deleteBookmark_frame (s : AppState) (bid fid : String)
    (hact : s.activeFolderId = some fid) :
    (∀ f ∈ (deleteBookmark bid true s).folders, f.id = fid →
        ∀ b ∈ f.bookmarks, b.id ≠ bid)
    ∧ (∀ (i : Nat) (f : Folder), s.folders[i]? = some f → f.id ≠ fid →
        (deleteBookmark bid true s).folders[i]? = some f)
    ∧ (∀ (i : Nat) (f : Folder), s.folders[i]? = some f → f.id = fid →
        (deleteBookmark bid true s).folders[i]? =
          some { f with bookmarks := f.bookmarks.filter (fun b => !(b.id == bid)) })
    ∧ ((∀ f ∈ s.folders, ∀ b ∈ f.bookmarks, b.id ≠ bid) →
        deleteBookmark bid true s = s)
    ∧ deleteBookmark bid true (deleteBookmark bid true s) =
        deleteBookmark bid true s := by
  refine ⟨?_, ?_, ?_, ?_, ?_⟩
  · intro f hf hfid b hb
    rw [deleteBookmark_unfold] at hf
    simp only [List.mem_map] at hf
    obtain ⟨f0, hf0, hmap⟩ := hf
    unfold deleteBookmarkFolder at hmap
    by_cases h0 : s.activeFolderId = some f0.id
    · rw [if_pos h0] at hmap
      subst hmap
      simp only [List.mem_filter] at hb
      simpa using hb.2
    · rw [if_neg h0] at hmap
      subst hmap
      rw [hact] at h0
      exact absurd (congrArg some hfid.symm) h0
  · intro i f hi hfid
    rw [deleteBookmark_unfold]
    simp only [List.getElem?_map, hi, Option.map_some']
    unfold deleteBookmarkFolder
    rw [hact, if_neg (fun h => hfid (Option.some.inj h).symm)]
  · intro i f hi hfid
    rw [deleteBookmark_unfold]
    simp only [List.getElem?_map, hi, Option.map_some']
    unfold deleteBookmarkFolder
    rw [hact, if_pos (congrArg some hfid.symm)]
  · intro habs
    rw [deleteBookmark_unfold]
    have hmap : s.folders.map (deleteBookmarkFolder s.activeFolderId bid) = s.folders := by
      conv_rhs => rw [← List.map_id s.folders]
      apply List.map_congr_left
      intro f hf
      unfold deleteBookmarkFolder
      by_cases h0 : s.activeFolderId = some f.id
      · rw [if_pos h0, List.filter_eq_self.mpr]
        · rfl
        · intro b hb
          simpa using habs f hf b hb
      · rw [if_neg h0]
        rfl
    rw [hmap]
  · rw [deleteBookmark_unfold bid s, deleteBookmark_unfold]
    have hproj :
        ({ s with folders := s.folders.map (deleteBookmarkFolder s.activeFolderId bid)
            } : AppState).activeFolderId = s.activeFolderId := rfl
    rw [hproj]
    have hmap :
        (s.folders.map (deleteBookmarkFolder s.activeFolderId bid)).map
            (deleteBookmarkFolder s.activeFolderId bid) =
          s.folders.map (deleteBookmarkFolder s.activeFolderId bid) := by
      rw [List.map_map]
      apply List.map_congr_left
      intro f _
      exact deleteBookmarkFolder_idem s.activeFolderId bid f
    exact congrArg (fun l => { s with folders := l }) hmap

/-- Witness for C5 on a concrete two-folder store: deleting "b1" from
active folder "f1" leaves folder "f2" (which also holds a bookmark named
"b1") untouched. -/
theorem deleteBookmark_frame_witness :
    (deleteBookmark "b1" true
        { emptyState with
          folders :=
            [{ id := "f1", name := "A", password := "p",
               bookmarks :=
                 [{ id := "b1", title := "t1", url := "u1", description := "",
                    createdAt := "c1", media := [] },
                  { id := "b2", title := "t2", url := "u2", description := "",
                    createdAt := "c2", media := [] }] },
             { id := "f2", name := "B", password := "q",
               bookmarks :=
                 [{ id := "b1", title := "t3", url := "u3", description := "",
                    createdAt := "c3", media := [] }] }],
          activeFolderId := some "f1" }).folders[1]? =
      some { id := "f2", name := "B", password := "q",
             bookmarks :=
               [{ id := "b1", title := "t3", url := "u3", description := "",
                  createdAt := "c3", media := [] }] } := by
  exact (deleteBookmark_frame _ "b1" "f1" rfl).2.1 1 _ rfl (by decide)

/-- When no folder matches the active id, the media rewrite leaves the
store untouched and selects nothing. -/
lemma updateFoldersSel_no_match (fid selId : String) (upd : Bookmark → Bookmark)
    (fs : List Folder) (h : ∀ f ∈ fs, f.id ≠ fid) :
    updateFoldersSel fid selId upd fs = (fs, none) := by
  induction fs with
  | nil => rfl
  | cons f t ih =>
    have hf : f.id ≠ fid := h f (List.mem_cons_self f t)
    unfold updateFoldersSel
    rw [ih (fun g hg => h g (List.mem_cons_of_mem f hg))]
    simp [hf]

/-- C10: when no bookmark is selected, or the active folder id is null
(or the falsy empty string), handleAddMedia and deleteMedia return the
state unchanged; and when the active folder id matches no folder in the
store, they leave every folder unchanged. -/
theorem media_guards_frame (s : AppState) :
    (s.selectedBookmark = none ∨ s.activeFolderId = none ∨ s.activeFolderId = some "" →
      ∀ (now isoNow : String) (t : MediaType) (content mid : String),
        handleAddMedia now isoNow t content s = s ∧ deleteMedia mid s = s)
    ∧ (∀ fid : String, s.activeFolderId = some fid →
        (∀ f ∈ s.folders, f.id ≠ fid) →
      ∀ (now isoNow : String) (t : MediaType) (content mid : String),
        (handleAddMedia now isoNow t content s).folders = s.folders
        ∧ (deleteMedia mid s).folders = s.folders) := by
  constructor
  · rintro (h | h | h) now isoNow t content mid
    · constructor
      · unfold handleAddMedia
        rw [h]
      · unfold deleteMedia
        rw [h]
    · constructor
      · unfold handleAddMedia
        rw [h]
        cases s.selectedBookmark <;> rfl
      · unfold deleteMedia
        rw [h]
        cases s.selectedBookmark <;> rfl
    · constructor
      · unfold handleAddMedia
        rw [h]
        cases s.selectedBookmark <;> simp
      · unfold deleteMedia
        rw [h]
        cases s.selectedBookmark <;> simp
  · intro fid hact hnone now isoNow t content mid
    by_cases hsel : s.selectedBookmark = none
    · constructor
      · unfold handleAddMedia
        rw [hsel]
      · unfold deleteMedia
        rw [hsel]
    · obtain ⟨sb, hsb⟩ := Option.ne_none_iff_exists'.mp hsel
      by_cases hemp : fid = ""
      · subst hemp
        constructor
        · unfold handleAddMedia
          rw [hsb, hact]
          simp
        · unfold deleteMedia
          rw [hsb, hact]
          simp
      · constructor
        · unfold handleAddMedia
          rw [hsb, hact]
          dsimp only
          rw [if_neg hemp]
          dsimp only
          rw [updateFoldersSel_no_match fid sb.id _ s.folders hnone]
        · unfold deleteMedia
          rw [hsb, hact]
          dsimp only
          rw [if_neg hemp]
          dsimp only
          rw [updateFoldersSel_no_match fid sb.id _ s.folders hnone]

/-- Witness for C10: with nothing selected, adding a voice note and
deleting a media id are both no-ops on a concrete state; and with a
dangling active folder id, the folders survive untouched. -/
theorem media_guards_frame_witness :
    (handleAddMedia "9" "t" .voice "blob"
        { emptyState with folders := [defaultFolder] } =
      { emptyState with folders := [defaultFolder] })
    ∧ ((deleteMedia "m1"
        { emptyState with folders := [defaultFolder],
                          activeFolderId := some "ghost",
                          selectedBookmark := some
                            { id := "b", title := "", url := "", description := "",
                              createdAt := "", media := [] } }).folders =
      [defaultFolder]) :=
  ⟨((media_guards_frame { emptyState with folders := [defaultFolder] }).1
      (Or.inl rfl) "9" "t" .voice "blob" "x").1,
   ((media_guards_frame _).2 "ghost" rfl (by decide) "9" "t" .voice "blob" "m1").2⟩

/-- Every bookmark `setSelectedBookmark` records during the media
rewrite carries the selected id, provided the update preserves ids. -/
lemma updateBookmarksSel_sel_id (selId : String) (upd : Bookmark → Bookmark)
    (hid : ∀ b, (upd b).id = b.id) (l : List Bookmark) (x : Bookmark)
    (hx : (updateBookmarksSel selId upd l).2 = some x) : x.id = selId := by
  induction l with
  | nil => cases hx
  | cons b t ih =>
    unfold updateBookmarksSel at hx
    by_cases hb : b.id = selId
    · rw [if_pos hb] at hx
      dsimp only at hx
      cases ht : (updateBookmarksSel selId upd t).2 with
      | some y =>
        rw [ht] at hx
        cases hx
        exact ih ht
      | none =>
        rw [ht] at hx
        cases hx
        rw [hid b]
        exact hb
    · rw [if_neg hb] at hx
      exact ih hx

/-- Folder-level version of `updateBookmarksSel_sel_id`. -/
lemma updateFoldersSel_sel_id (fid selId : String) (upd : Bookmark → Bookmark)
    (hid : ∀ b, (upd b).id = b.id) (fs : List Folder) (x : Bookmark)
    (hx : (updateFoldersSel fid selId upd fs).2 = some x) : x.id = selId := by
  induction fs with
  | nil => cases hx
  | cons f t ih =>
    unfold updateFoldersSel at hx
    by_cases hf : f.id = fid
    · rw [if_pos hf] at hx
      dsimp only at hx
      cases ht : (updateFoldersSel fid selId upd t).2 with
      | some y =>
        rw [ht] at hx
        cases hx
        exact ih ht
      | none =>
        rw [ht] at hx
        exact updateBookmarksSel_sel_id selId upd hid f.bookmarks x hx
    · rw [if_neg hf] at hx
      exact ih hx

/-- One unfolding step of `updateBookmarksSel`. -/
lemma updateBookmarksSel_cons (selId : String) (upd : Bookmark → Bookmark)
    (b : Bookmark) (bs : List Bookmark) :
    updateBookmarksSel selId upd (b :: bs) =
      if b.id = selId then
        (upd b :: (updateBookmarksSel selId upd bs).1,
         match (updateBookmarksSel selId upd bs).2 with
         | some x => some x
         | none => some (upd b))
      else (b :: (updateBookmarksSel selId upd bs).1,
            (updateBookmarksSel selId upd bs).2) := by
  conv_lhs => unfold updateBookmarksSel

/-- One unfolding step of `updateFoldersSel`. -/
lemma updateFoldersSel_cons (fid selId : String) (upd : Bookmark → Bookmark)
    (f : Folder) (fs : List Folder) :
    updateFoldersSel fid selId upd (f :: fs) =
      if f.id = fid then
        ({ f with bookmarks := (updateBookmarksSel selId upd f.bookmarks).1 }
            :: (updateFoldersSel fid selId upd fs).1,
         match (updateFoldersSel fid selId upd fs).2 with
         | some b => some b
         | none => (updateBookmarksSel selId upd f.bookmarks).2)
      else (f :: (updateFoldersSel fid selId upd fs).1,
            (updateFoldersSel fid selId upd fs).2) := by
  conv_lhs => unfold updateFoldersSel

/-- Applying a second media rewrite that undoes the first on every
matching bookmark restores the bookmark list. -/
lemma updateBookmarksSel_fst_comp (selId : String) (u1 u2 : Bookmark → Bookmark)
    (hid : ∀ b, (u1 b).id = b.id) (l : List Bookmark)
    (h : ∀ b ∈ l, b.id = selId → u2 (u1 b) = b) :
    (updateBookmarksSel selId u2 (updateBookmarksSel selId u1 l).1).1 = l := by
  induction l with
  | nil => rfl
  | cons b t ih =>
    have iht := ih (fun x hx hsx => h x (List.mem_cons_of_mem b hx) hsx)
    by_cases hb : b.id = selId
    · rw [updateBookmarksSel_cons, if_pos hb]
      dsimp only
      rw [updateBookmarksSel_cons, if_pos ((hid b).trans hb)]
      dsimp only
      rw [iht, h b (List.mem_cons_self b t) hb]
    · rw [updateBookmarksSel_cons, if_neg hb]
      dsimp only
      rw [updateBookmarksSel_cons, if_neg hb]
      dsimp only
      rw [iht]

/-- Folder-level round trip: a second rewrite that undoes the first on
every matching bookmark restores the whole store. -/
lemma updateFoldersSel_fst_comp (fid selId : String) (u1 u2 : Bookmark → Bookmark)
    (hid : ∀ b, (u1 b).id = b.id) (fs : List Folder)
    (h : ∀ f ∈ fs, ∀ b ∈ f.bookmarks, b.id = selId → u2 (u1 b) = b) :
    (updateFoldersSel fid selId u2 (updateFoldersSel fid selId u1 fs).1).1 = fs := by
  induction fs with
  | nil => rfl
  | cons f t ih =>
    have iht := ih (fun g hg => h g (List.mem_cons_of_mem f hg))
    by_cases hf : f.id = fid
    · rw [updateFoldersSel_cons, if_pos hf]
      dsimp only
      rw [updateFoldersSel_cons, if_pos (hf :
        ({ f with bookmarks := (updateBookmarksSel selId u1 f.bookmarks).1 } : Folder).id
          = fid)]
      dsimp only
      rw [iht,
        updateBookmarksSel_fst_comp selId u1 u2 hid f.bookmarks
          (fun b hb => h f (List.mem_cons_self f t) b hb)]
    · rw [updateFoldersSel_cons, if_neg hf]
      dsimp only
      rw [updateFoldersSel_cons, if_neg hf]
      dsimp only
      rw [iht]

/-- C4: adding a MediaItem to the selected bookmark via handleAddMedia
and then deleting that item by its freshly generated id via deleteMedia
returns the folders model — and with it every bookmark's media
sequence — to its prior state, provided the generated id is fresh (no
existing media item carries it). -/
theorem media_add_delete_roundtrip (s : AppState) (now isoNow content : String)
    (t : MediaType) (b : Bookmark)
    (hsel : s.selectedBookmark = some b)
    (hfresh : ∀ f ∈ s.folders, ∀ bk ∈ f.bookmarks, ∀ m ∈ bk.media, m.id ≠ now) :
    (deleteMedia now (handleAddMedia now isoNow t content s)).folders = s.folders := by
  cases hact : s.activeFolderId with
  | none =>
    have h1 : handleAddMedia now isoNow t content s = s := by
      unfold handleAddMedia
      rw [hsel, hact]
    rw [h1]
    unfold deleteMedia
    rw [hsel, hact]
  | some fid =>
    by_cases hemp : fid = ""
    · subst hemp
      have h1 : handleAddMedia now isoNow t content s = s := by
        unfold handleAddMedia
        rw [hsel, hact]
        simp
      rw [h1]
      unfold deleteMedia
      rw [hsel, hact]
      simp
    · have hadd : handleAddMedia now isoNow t content s =
          { s with
            folders := (updateFoldersSel fid b.id
              (fun bk => { bk with media := bk.media ++
                [{ id := now, type := t, content := content, createdAt := isoNow }] })
              s.folders).1,
            selectedBookmark :=
              match (updateFoldersSel fid b.id
                (fun bk => { bk with media := bk.media ++
                  [{ id := now, type := t, content := content, createdAt := isoNow }] })
                s.folders).2 with
              | some x => some x
              | none => some b,
            toast := some { msg := t.toStr ++ " added", type := .success } } := by
        unfold handleAddMedia
        rw [hsel, hact]
        dsimp only
        rw [if_neg hemp]
      have hcomp : ∀ f ∈ s.folders, ∀ bk ∈ f.bookmarks, bk.id = b.id →
          (fun bk => { bk with
              media := bk.media.filter (fun m => !(m.id == now)) } : Bookmark → Bookmark)
            ((fun bk => { bk with media := bk.media ++
              [{ id := now, type := t, content := content, createdAt := isoNow }] }) bk)
          = bk := by
        intro f hf bk hbk _
        dsimp only
        rw [List.filter_append]
        rw [List.filter_eq_self.mpr
          (fun m hm => by simpa using hfresh f hf bk hbk m hm)]
        have h2 : List.filter (fun m => !(m.id == now))
            [({ id := now, type := t, content := content,
                createdAt := isoNow } : MediaItem)] = [] := by
          simp
        rw [h2, List.append_nil]
      cases hsel2 : (updateFoldersSel fid b.id
          (fun bk => { bk with media := bk.media ++
            [{ id := now, type := t, content := content, createdAt := isoNow }] })
          s.folders).2 with
      | none =>
        rw [hadd]
        unfold deleteMedia
        rw [hsel2, hact]
        dsimp only
        rw [if_neg hemp]
        dsimp only
        exact updateFoldersSel_fst_comp fid b.id
          (fun bk => { bk with media := bk.media ++
            [{ id := now, type := t, content := content, createdAt := isoNow }] })
          (fun bk => { bk with
            media := bk.media.filter (fun m => !(m.id == now)) })
          (fun _ => rfl) s.folders hcomp
      | some x =>
        have hxid : x.id = b.id :=
          updateFoldersSel_sel_id fid b.id
            (fun bk => { bk with media := bk.media ++
            [{ id := now, type := t, content := content, createdAt := isoNow }] })
            (fun _ => rfl) s.folders x hsel2
        rw [hadd]
        unfold deleteMedia
        rw [hsel2, hact]
        dsimp only
        rw [if_neg hemp]
        dsimp only
        rw [hxid]
        exact updateFoldersSel_fst_comp fid b.id
          (fun bk => { bk with media := bk.media ++
            [{ id := now, type := t, content := content, createdAt := isoNow }] })
          (fun bk => { bk with
            media := bk.media.filter (fun m => !(m.id == now)) })
          (fun _ => rfl) s.folders hcomp

/-- Witness for C4: on a concrete one-folder store with a selected
bookmark holding one prior media item, the voice-note add/delete round
trip restores the store exactly. -/
theorem media_add_delete_roundtrip_witness :
    (deleteMedia "99" (handleAddMedia "99" "t1" .voice "blob"
        { emptyState with
          folders :=
            [{ id := "f1", name := "A", password := "p",
               bookmarks :=
                 [{ id := "b1", title := "t", url := "u", description := "",
                    createdAt := "c",
                    media := [{ id := "m0", type := .image, content := "img",
                                createdAt := "c0" }] }] }],
          activeFolderId := some "f1",
          selectedBookmark := some
            { id := "b1", title := "t", url := "u", description := "",
              createdAt := "c",
              media := [{ id := "m0", type := .image, content := "img",
                          createdAt := "c0" }] } })).folders =
      [{ id := "f1", name := "A", password := "p",
         bookmarks :=
           [{ id := "b1", title := "t", url := "u", description := "",
              createdAt := "c",
              media := [{ id := "m0", type := .image, content := "img",
                          createdAt := "c0" }] }] }] :=
  media_add_delete_roundtrip _ "99" "t1" "blob" .voice _ rfl (by decide)

/-- handleCreateFolder never touches the unlocked set. -/
lemma createFolder_unlocked (now : String) (s : AppState) :
    (handleCreateFolder now s).unlockedFolders = s.unlockedFolders := by
  unfold handleCreateFolder showToast
  split <;> rfl

/-- handleAddBookmark never touches the unlocked set. -/
lemma addBookmark_unlocked (now isoNow : String) (s : AppState) :
    (handleAddBookmark now isoNow s).unlockedFolders = s.unlockedFolders := by
  unfold handleAddBookmark
  split <;> rfl

/-- handleAddMedia never touches the unlocked set. -/
lemma addMedia_unlocked (now isoNow : String) (t : MediaType) (content : String)
    (s : AppState) :
    (handleAddMedia now isoNow t content s).unlockedFolders = s.unlockedFolders := by
  unfold handleAddMedia
  split
  · split <;> rfl
  · rfl

/-- deleteMedia never touches the unlocked set. -/
lemma deleteMedia_unlocked (mediaId : String) (s : AppState) :
    (deleteMedia mediaId s).unlockedFolders = s.unlockedFolders := by
  unfold deleteMedia
  split
  · split <;> rfl
  · rfl

/-- handleAddVideoLink never touches the unlocked set. -/
lemma addVideoLink_unlocked (now isoNow : String) (s : AppState) :
    (handleAddVideoLink now isoNow s).unlockedFolders = s.unlockedFolders := by
  unfold handleAddVideoLink
  split
  · rfl
  · exact addMedia_unlocked now isoNow .video _ s

/-- selectFolder never touches the unlocked set. -/
lemma selectFolder_unlocked (id : String) (s : AppState) :
    (selectFolder id s).unlockedFolders = s.unlockedFolders := by
  unfold selectFolder
  split <;> rfl

/-- deleteBookmark never touches the unlocked set. -/
lemma deleteBookmark_unlocked (bookmarkId : String) (confirmed : Bool)
    (s : AppState) :
    (deleteBookmark bookmarkId confirmed s).unlockedFolders = s.unlockedFolders := by
  unfold deleteBookmark
  split <;> rfl

/-- handleDeleteFromModal never touches the unlocked set. -/
lemma deleteFromModal_unlocked (confirmed : Bool) (s : AppState) :
    (handleDeleteFromModal confirmed s).unlockedFolders = s.unlockedFolders := by
  unfold handleDeleteFromModal
  split
  · split
    · rfl
    · split <;> rfl
  · rfl

/-- handleEnchant never touches the unlocked set. -/
lemma enchant_unlocked (result : String) (parse : String → Option EnchantResponse)
    (s : AppState) :
    (handleEnchant result parse s).unlockedFolders = s.unlockedFolders := by
  have ht : ∀ p s0, (applyParsedTitle p s0 : AppState).unlockedFolders =
      s0.unlockedFolders := by
    intro p s0
    unfold applyParsedTitle
    split
    · split <;> rfl
    · rfl
  have hd : ∀ p s0, (applyParsedDesc p s0 : AppState).unlockedFolders =
      s0.unlockedFolders := by
    intro p s0
    unfold applyParsedDesc
    split
    · split <;> rfl
    · rfl
  unfold handleEnchant showToast
  split
  · rfl
  · split
    · rfl
    · rw [hd, ht]

/-- handleUnlock only ever adds to the unlocked set. -/
lemma handleUnlock_unlocked_mono (s : AppState) (x : String)
    (hx : x ∈ s.unlockedFolders) : x ∈ (handleUnlock s).unlockedFolders := by
  unfold handleUnlock showToast
  split
  · split
    · dsimp only
      split
      · split
        · exact hx
        · exact setAdd_mem_of_mem _ hx
      · exact hx
    · exact hx
  · exact hx

/-- C9: the transient unlocked-folder set grows monotonically within a
session: no step of the session ever removes an id from it, and any step
that changes it at all is the unlock operation (which, on success, adds
the unlocked folder's id). -/
theorem unlocked_monotone (a : Action) (s : AppState) :
    (∀ x ∈ s.unlockedFolders, x ∈ (step a s).unlockedFolders)
    ∧ ((step a s).unlockedFolders ≠ s.unlockedFolders → a = Action.unlock) := by
  cases a with
  | createFolder now =>
    exact ⟨fun x hx => (createFolder_unlocked now s) ▸ hx,
      fun hne => absurd (createFolder_unlocked now s) hne⟩
  | addBookmark now isoNow =>
    exact ⟨fun x hx => (addBookmark_unlocked now isoNow s) ▸ hx,
      fun hne => absurd (addBookmark_unlocked now isoNow s) hne⟩
  | addMedia now isoNow t content =>
    exact ⟨fun x hx => (addMedia_unlocked now isoNow t content s) ▸ hx,
      fun hne => absurd (addMedia_unlocked now isoNow t content s) hne⟩
  | addVideoLink now isoNow =>
    exact ⟨fun x hx => (addVideoLink_unlocked now isoNow s) ▸ hx,
      fun hne => absurd (addVideoLink_unlocked now isoNow s) hne⟩
  | removeMedia mediaId =>
    exact ⟨fun x hx => (deleteMedia_unlocked mediaId s) ▸ hx,
      fun hne => absurd (deleteMedia_unlocked mediaId s) hne⟩
  | unlock =>
    exact ⟨fun x hx => handleUnlock_unlocked_mono s x hx, fun _ => rfl⟩
  | chooseFolder id =>
    exact ⟨fun x hx => (selectFolder_unlocked id s) ▸ hx,
      fun hne => absurd (selectFolder_unlocked id s) hne⟩
  | removeBookmark bookmarkId confirmed =>
    exact ⟨fun x hx => (deleteBookmark_unlocked bookmarkId confirmed s) ▸ hx,
      fun hne => absurd (deleteBookmark_unlocked bookmarkId confirmed s) hne⟩
  | removeFromModal confirmed =>
    exact ⟨fun x hx => (deleteFromModal_unlocked confirmed s) ▸ hx,
      fun hne => absurd (deleteFromModal_unlocked confirmed s) hne⟩
  | enchant result parse =>
    exact ⟨fun x hx => (enchant_unlocked result parse s) ▸ hx,
      fun hne => absurd (enchant_unlocked result parse s) hne⟩
  | openDetail b => exact ⟨fun x hx => hx, fun hne => absurd rfl hne⟩
  | closeDetail => exact ⟨fun x hx => hx, fun hne => absurd rfl hne⟩
  | openAddFolderModal => exact ⟨fun x hx => hx, fun hne => absurd rfl hne⟩
  | closeAddFolderModal => exact ⟨fun x hx => hx, fun hne => absurd rfl hne⟩
  | openAddBookmarkModal => exact ⟨fun x hx => hx, fun hne => absurd rfl hne⟩
  | closeAddBookmarkModal => exact ⟨fun x hx => hx, fun hne => absurd rfl hne⟩
  | closeUnlockModal => exact ⟨fun x hx => hx, fun hne => absurd rfl hne⟩
  | setNewFolderName v => exact ⟨fun x hx => hx, fun hne => absurd rfl hne⟩
  | setNewFolderPass v => exact ⟨fun x hx => hx, fun hne => absurd rfl hne⟩
  | setNewBookmarkTitle v => exact ⟨fun x hx => hx, fun hne => absurd rfl hne⟩
  | setNewBookmarkUrl v => exact ⟨fun x hx => hx, fun hne => absurd rfl hne⟩
  | setNewBookmarkDesc v => exact ⟨fun x hx => hx, fun hne => absurd rfl hne⟩
  | setNewBookmarkImg v => exact ⟨fun x hx => hx, fun hne => absurd rfl hne⟩
  | setUnlockInput v => exact ⟨fun x hx => hx, fun hne => absurd rfl hne⟩
  | setVideoUrlInput v => exact ⟨fun x hx => hx, fun hne => absurd rfl hne⟩
  | clearToast => exact ⟨fun x hx => hx, fun hne => absurd rfl hne⟩

/-- Witness for C9: a folder unlocked earlier stays in the unlocked set
across a later folder selection. -/
theorem unlocked_monotone_witness :
    "a" ∈ (step (Action.chooseFolder "b")
      { emptyState with unlockedFolders := ["a"] }).unlockedFolders :=
  (unlocked_monotone (Action.chooseFolder "b")
    { emptyState with unlockedFolders := ["a"] }).1 "a" (by decide)

end VelvetVault
